import Mathlib

/-!
Verification of the dft-orch workflow orchestration engine.

This file gives a shallow embedding, in Lean 4, of the pure logic of the
dft-orch pipeline: the conditional retry routing (`src/dft_graph/graph.py`),
the deterministic repair policy and retry bookkeeping
(`src/dft_graph/nodes/repair_and_retry.py`, `load_config.py`), the
validation verdict (`src/dft_graph/nodes/validate_and_report.py`), the
error capture of the relaxation stage (`run_relaxation.py`), the stable
JSON hashing (`src/dft_graph/utils/hashing.py`), run-id sanitization
(`src/dft_graph/utils/paths.py`), and the `run.retries` schema constraint
(`src/dft_graph/config.py`).

Python ints are modelled as `Int`, Python floats as `Rat` (the repair
policy, validation, and schema checks only compare and take min/max, so
the order structure is all that matters), dicts holding known keys as
structures, `None`-able values as `Option`, and raised exceptions as
`Except`.  Filesystem and logging side effects carry no information used
by any claim and are omitted.
-/

namespace DftOrch

/-! ## SCF parameters and retry bookkeeping

From `src/dft_graph/state.py` (`RetryState`) and
`src/dft_graph/nodes/repair_and_retry.py`.  The history entry mirrors the
dict appended at `repair_and_retry.py:73-79` (attempt number, old/new value
for both changed parameters, fixed reason code). -/

structure ScfParams where
  max_cycle : Int
  conv_tol : Rat
deriving DecidableEq

structure AttemptChanges where
  old_max_cycle : Int
  new_max_cycle : Int
  old_conv_tol : Rat
  new_conv_tol : Rat
deriving DecidableEq

structure AttemptRecord where
  attempt : Int
  changes : AttemptChanges
  reason : String
deriving DecidableEq

structure RetryState where
  retries_remaining : Int
  retries_used : Int
  history : List AttemptRecord
deriving DecidableEq

/-- The slice of `WorkflowState` that `repair_and_retry` reads and writes:
the mutable `calculator.scf` sub-section of the resolved config, and the
retry bookkeeping record. -/
structure RepairState where
  scf : ScfParams
  retry : RetryState
deriving DecidableEq

/-- The literal `1e-8` floor from `repair_and_retry.py:59`
(`new_conv_tol = max(prev_conv_tol, 1e-8)`), as an exact rational. -/
def convTolFloor : Rat := 1 / 100000000

/-- `repair_and_retry.py:56`:
`new_max_cycle = 50 if prev_max_cycle < 50 else min(prev_max_cycle * 2, 400)`. -/
def repairMaxCycle (prev_max_cycle : Int) : Int :=
  if prev_max_cycle < 50 then 50 else min (prev_max_cycle * 2) 400

/-- `repair_and_retry.py:59`: `new_conv_tol = max(prev_conv_tol, 1e-8)`. -/
def repairConvTol (prev_conv_tol : Rat) : Rat :=
  max prev_conv_tol convTolFloor

/-- `repair_and_retry.py:22-109`.  No-op when `retries_remaining <= 0`
(line 39); otherwise applies the deterministic repair rule (lines 56, 59),
appends a history record (lines 72-79), and updates the bookkeeping
(lines 70-71, 80-81).  Log and manifest writes are side effects that do
not feed back into the state. -/
def repair_and_retry (state : RepairState) : RepairState :=
  let remaining := state.retry.retries_remaining
  let used := state.retry.retries_used
  if remaining ≤ 0 then state
  else
    let prev_max_cycle := state.scf.max_cycle
    let prev_conv_tol := state.scf.conv_tol
    let new_max_cycle := repairMaxCycle prev_max_cycle
    let new_conv_tol := repairConvTol prev_conv_tol
    let used' := used + 1
    { scf := { max_cycle := new_max_cycle, conv_tol := new_conv_tol }
    , retry :=
      { retries_remaining := remaining - 1
      , retries_used := used'
      , history := state.retry.history ++
          [{ attempt := used'
           , changes :=
             { old_max_cycle := prev_max_cycle
             , new_max_cycle := new_max_cycle
             , old_conv_tol := prev_conv_tol
             , new_conv_tol := new_conv_tol }
           , reason := "scf_not_converged" }] } }

/-- `load_config.py:66-71`: the retry record created at the `load_config`
stage from the configured `run.retries` value. -/
def initRetryState (retries : Int) : RetryState :=
  { retries_remaining := retries, retries_used := 0, history := [] }

/-! ## Conditional routing after `run_relaxation`

From `graph.py:30-39` (`_route_after_run`).  `scf_converged` is read from
the calculation dict (`None`/missing modelled as `none`), and the
predicate `calc.get("scf_converged") is True` is `= some true`;
`retries_remaining` is read with default 0. -/

def route_after_run (scf_converged : Option Bool) (retries_remaining : Int) : String :=
  if scf_converged = some true then "validate_and_report"
  else if retries_remaining > 0 then "repair_and_retry"
  else "validate_and_report"

/-- The retry cycle of the compiled graph: at relaxation attempt `k` the
calculation reports `outcomes k` as its `scf_converged` field; the
conditional edge (`route_after_run`) either exits to
`validate_and_report` (result `true`) or traverses `repair_and_retry` and
loops back to `run_relaxation` (`graph.py:41-49`).  `fuel` bounds the
number of relaxation attempts inspected. -/
def reachesValidationWithin (outcomes : Nat → Option Bool) :
    RepairState → Nat → Nat → Bool
  | _, _, 0 => false
  | s, k, fuel + 1 =>
    if route_after_run (outcomes k) s.retry.retries_remaining = "validate_and_report"
    then true
    else reachesValidationWithin outcomes (repair_and_retry s) (k + 1) fuel

/-! ## The `run.retries` schema constraint

From `config.py:99` (`retries: int = Field(default=1, ge=0, le=2)`) inside
`RunConfig`, enforced by `RootConfig.model_validate` which
`resolve_config` (`config.py:206-213`) wraps into a
`ConfigValidationError`. -/

inductive ConfigError where
  | load (msg : String)
  | validation (msg : String)
deriving DecidableEq

/-- The pydantic field constraint `ge=0, le=2` on `run.retries`. -/
def runRetriesSchemaOk (retries : Int) : Bool :=
  0 ≤ retries && retries ≤ 2

/-- `resolve_config`'s treatment of the `run.retries` field: schema
violations become a `ConfigValidationError` (`config.py:206-213`); a
conforming value survives into the resolved config that `load_config`
reads at `load_config.py:66`. -/
def validateRunRetries (retries : Int) : Except ConfigError Int :=
  if runRetriesSchemaOk retries then Except.ok retries
  else Except.error (ConfigError.validation "run.retries: schema constraint ge=0 le=2 violated")

/-! ## Calculation results and the relaxation stage's error capture

From `state.py` (`CalcResults`) and `run_relaxation.py`.  Force vectors
are triples of floats (rows of `forces_eV_per_A`). -/

structure Calculation where
  energy_eV : Option Rat
  forces_eV_per_A : Option (List (Rat × Rat × Rat))
  scf_converged : Option Bool
  scf_iterations : Option Int
  scf_solver : Option String
  error : Option String
deriving DecidableEq

/-- `run_relaxation.py:282-304`: the calculation record is re-initialized
at the start of every `run_relaxation` invocation; the fields relevant to
routing and validation are all reset to `None`. -/
def initCalculation : Calculation :=
  { energy_eV := none
  , forces_eV_per_A := none
  , scf_converged := none
  , scf_iterations := none
  , scf_solver := none
  , error := none }

/-- The `last` dict produced by the compute adapter
(`_pyscf_single_point` / `_pyscf_pbc_single_point` via
`_AsePyScfCalculator.last_result`), applied to the calculation record by
`state["calculation"].update(last)` (`run_relaxation.py:417` / `444`). -/
structure RelaxOutcome where
  scf_solver : Option String
  energy_eV : Option Rat
  forces_eV_per_A : Option (List (Rat × Rat × Rat))
  scf_converged : Option Bool
  scf_iterations : Option Int
deriving DecidableEq

def applyOutcome (c : Calculation) (r : RelaxOutcome) : Calculation :=
  { c with
    scf_solver := r.scf_solver
  , energy_eV := r.energy_eV
  , forces_eV_per_A := r.forces_eV_per_A
  , scf_converged := r.scf_converged
  , scf_iterations := r.scf_iterations }

/-- The `try/except` block of `run_relaxation.py:378-467`.  The body
(optimizer loop plus compute-adapter calls, including the
unsupported-optimizer raise at line 390) either returns an outcome dict
or raises; `body` models that as an `Except`.  The `except Exception`
branch (lines 458-467) records the exception text into
`calculation.error`, forces `scf_converged` to `False`, and the stage
returns the state normally — the result is always `Except.ok`, never a
re-raise. -/
def run_relaxation_try (c : Calculation) (body : Except String RelaxOutcome) :
    Except String Calculation :=
  Except.ok <|
    match body with
    | Except.ok last => applyOutcome c last
    | Except.error e => { c with error := some e, scf_converged := some false }

/-! ## Validation verdict

From `validate_and_report.py:47-96`.  `math.sqrt` and Python's
`round(x, 8)` act on IEEE doubles; the reason list and `passed` flag do
not depend on which values they return, so both are taken as parameters
(`sqrtF`, `round8F`) of the embedding rather than re-implemented. -/

structure ValidateCfg where
  require_scf_converged : Option Bool
  max_force : Option Rat
deriving DecidableEq

structure ValidationResults where
  passed : Bool
  reasons : List String
  max_force : Option Rat
deriving DecidableEq

/-- Python `max(norms)` over a nonempty list. -/
def listMax : Rat → List Rat → Rat
  | x, [] => x
  | x, y :: ys => listMax (max x y) ys

/-- `validate_and_report.py:58-82`: reason accumulation (lines 61-75),
then `passed = len(reasons) == 0` (line 77) and the validation record
written back into the state (lines 78-82).  `validate_cfg.get(...)`
defaults (`require_scf_converged` → `True`, `max_force` → `0.05`) are the
`getD` defaults. -/
def validate_and_report (sqrtF round8F : Rat → Rat)
    (calculation : Calculation) (validate_cfg : ValidateCfg) : ValidationResults :=
  let reasons1 : List String :=
    if calculation.energy_eV = none then ["energy_missing_or_not_run"] else []
  let reasons2 : List String :=
    if validate_cfg.require_scf_converged.getD true = true ∧
        ¬ calculation.scf_converged = some true
    then reasons1 ++ ["scf_not_converged_or_not_run"]
    else reasons1
  match calculation.forces_eV_per_A with
  | some (f :: fs) =>
    let norm := fun p : Rat × Rat × Rat => sqrtF (p.1 * p.1 + p.2.1 * p.2.1 + p.2.2 * p.2.2)
    let max_force := round8F (listMax (norm f) (fs.map norm))
    let threshold := validate_cfg.max_force.getD (5 / 100)
    let reasons3 :=
      if threshold < max_force then reasons2 ++ ["max_force_exceeded"] else reasons2
    { passed := reasons3.length = 0, reasons := reasons3, max_force := some max_force }
  | _ =>
    { passed := reasons2.length = 0, reasons := reasons2, max_force := none }

/-! ## Run-identifier sanitization

From `src/dft_graph/utils/paths.py`.  Strings are handled as their
character lists.  `_SAFE_COMPONENT_RE = re.compile(r"[^A-Za-z0-9_.-]+")`:
a character is safe iff it is ASCII alphanumeric or one of `_`, `.`,
`-`. -/

def isSafeChar (c : Char) : Bool :=
  (65 ≤ c.toNat && c.toNat ≤ 90) ||
  (97 ≤ c.toNat && c.toNat ≤ 122) ||
  (48 ≤ c.toNat && c.toNat ≤ 57) ||
  c = '_' || c = '.' || c = '-'

/-- ASCII whitespace stripped by Python `str.strip()`. -/
def isPySpace (c : Char) : Bool :=
  c = ' ' || c = '\t' || c = '\n' || c = '\x0d' || c = '\x0b' || c = '\x0c'

/-- Drop characters satisfying `p` from both ends (Python `str.strip`). -/
def stripEnds (p : Char → Bool) (l : List Char) : List Char :=
  ((l.dropWhile p).reverse.dropWhile p).reverse

/-- `_SAFE_COMPONENT_RE.sub("-", v)`: each maximal run of unsafe
characters is replaced by a single `-`. -/
def collapseRuns : List Char → List Char
  | [] => []
  | c :: cs =>
    if isSafeChar c then c :: collapseRuns cs
    else '-' :: collapseRuns (cs.dropWhile (fun d => ! isSafeChar d))
termination_by l => l.length
decreasing_by
  · simp
  · simp only [List.length_cons]
    exact Nat.lt_succ_of_le (List.dropWhile_sublist _).length_le

/-- `paths.py:18-24` (`sanitize_component`): strip whitespace, map spaces
to `-`, collapse unsafe runs, strip `-_.` from both ends, truncate to
`max_len`, and fall back to `"x"` when empty. -/
def sanitize_component (value : String) (max_len : Nat := 64) : String :=
  let v := stripEnds isPySpace value.data
  let v := v.map (fun c => if c = ' ' then '-' else c)
  let v := collapseRuns v
  let v := stripEnds (fun c => c = '-' || c = '_' || c = '.') v
  let v := v.take max_len
  if v.isEmpty then "x" else String.mk v

/-- ASCII lower-casing as performed by Python `str.lower()` on the
sanitized component (sanitized components are ASCII-only). -/
def asciiLower (s : String) : String :=
  String.mk (s.data.map fun c =>
    if 65 ≤ c.toNat && c.toNat ≤ 90 then Char.ofNat (c.toNat + 32) else c)

/-- A UTC timestamp with second precision (`datetime` after
`astimezone(UTC)` in `format_utc_compact`). -/
structure UTCTime where
  year : Nat
  month : Nat
  day : Nat
  hour : Nat
  minute : Nat
  second : Nat
deriving DecidableEq

def pad2 (n : Nat) : String :=
  if n < 10 then "0" ++ toString n else toString n

def pad4 (n : Nat) : String :=
  if n < 10 then "000" ++ toString n
  else if n < 100 then "00" ++ toString n
  else if n < 1000 then "0" ++ toString n
  else toString n

/-- `paths.py:11-15`: `dt.strftime("%Y%m%dT%H%M%SZ")`. -/
def format_utc_compact (t : UTCTime) : String :=
  pad4 t.year ++ pad2 t.month ++ pad2 t.day ++ "T" ++
    pad2 t.hour ++ pad2 t.minute ++ pad2 t.second ++ "Z"

/-- `paths.py:41-57` (`build_run_id`).  The optional components are
guarded by Python truthiness (`if git_sha:` / `if run_name:`), so an
empty string behaves like `None`; the run-name component is lower-cased
after sanitization (line 56). -/
def build_run_id (created_at_utc : UTCTime) (material_id : String)
    (config_hash : String) (git_sha : Option String) (run_name : Option String) : String :=
  let ts := format_utc_compact created_at_utc
  let material := sanitize_component material_id 48
  let cfg := sanitize_component config_hash 16
  let parts := [ts, material, cfg]
  let parts := parts ++
    (match git_sha with
     | some g => if g = "" then [] else [sanitize_component g 16]
     | none => [])
  let parts := parts ++
    (match run_name with
     | some r => if r = "" then [] else [asciiLower (sanitize_component r 48)]
     | none => [])
  String.intercalate "_" parts

/-! ## Stable JSON hashing

From `src/dft_graph/utils/hashing.py`.  `stable_json_dumps` serializes a
structured value with `json.dumps(obj, sort_keys=True,
separators=(",", ":"), ensure_ascii=False)`; `short_hash_from_obj`
feeds the resulting string to SHA-256 and truncates the hex digest.

The JSON-able values are the inductive `JValue` (null, bools, numbers,
strings, arrays, objects; Python dicts have pairwise-distinct keys, which
`WFJ` records).  `sort_keys=True` sorts sibling keys by Unicode
code-point order, embedded as `lexLe` on character lists; serialization
of one entry depends only on that entry, so sorting the rendered
`(key, "key":value)` pairs by key is the same stable sort `json.dumps`
performs on the items before rendering.  The textual rendering of a
number (Python `repr` of a float/int) and the escaping of a string
character are functions of the value alone; `numRepr`/`escapeChar` fix a
concrete such rendering, and SHA-256 itself enters only as an arbitrary
function `sha256hex` of the serialized string, which is all that
key-order independence needs. -/

inductive JValue where
  | null
  | bool (b : Bool)
  | num (q : Rat)
  | str (s : String)
  | arr (items : List JValue)
  | obj (fields : List (String × JValue))

/-- Unicode code-point lexicographic order on strings (as `json.dumps`
compares keys after `sort_keys=True`). -/
def lexLe : List Char → List Char → Bool
  | [], _ => true
  | _ :: _, [] => false
  | a :: as, b :: bs =>
    if a < b then true
    else if b < a then false
    else lexLe as bs

/-- Key comparison on rendered `(key, renderedEntry)` pairs. -/
def keyPairLe (p q : String × String) : Bool := lexLe p.1.data q.1.data

def joinComma (parts : List String) : String := String.intercalate "," parts

/-- JSON string-character rendering with `ensure_ascii=False`: quote and
backslash are escaped, control characters use their short escapes, and
every other character is passed through. -/
def escapeChar (c : Char) : String :=
  if c = '"' then "\\\""
  else if c = '\\' then "\\\\"
  else if c = '\n' then "\\n"
  else if c = '\t' then "\\t"
  else if c = '\x0d' then "\\r"
  else String.mk [c]

def dumpString (s : String) : String :=
  "\"" ++ String.join (s.data.map escapeChar) ++ "\""

/-- Decimal rendering of a number (stands for Python `repr`; any
function of the value serves key-order determinism). -/
def numRepr (q : Rat) : String :=
  if q.den = 1 then toString q.num else toString q.num ++ "/" ++ toString q.den

/-- Render an object from its `(key, renderedEntry)` pairs: sort by key,
then join with `,` between `\x7b` and `\x7d` (`sort_keys=True` with
separators `(",", ":")`). -/
def renderObjFromPairs (entries : List (String × String)) : String :=
  "\x7b" ++ joinComma ((entries.mergeSort keyPairLe).map Prod.snd) ++ "\x7d"

/-- `hashing.py:24-38` (`stable_json_dumps`), recursively: arrays render
in order, objects render their entries sorted by key. -/
def dumps : JValue → String
  | .null => "null"
  | .bool b => if b then "true" else "false"
  | .num q => numRepr q
  | .str s => dumpString s
  | .arr items => "[" ++ joinComma (items.attach.map (fun x => dumps x.1)) ++ "]"
  | .obj fields =>
    renderObjFromPairs
      (fields.attach.map (fun p => (p.1.1, dumpString p.1.1 ++ ":" ++ dumps p.1.2)))
decreasing_by
  · have := List.sizeOf_lt_of_mem x.2
    simp
    omega
  · have := List.sizeOf_lt_of_mem p.2
    have h2 : sizeOf p.1.2 < sizeOf p.1 := by
      obtain ⟨⟨k, v⟩, hm⟩ := p
      simp
    simp
    omega

def stable_json_dumps (v : JValue) : String := dumps v

/-- `hashing.py:41-43` (`short_hash_from_obj`): the SHA-256 hex digest of
the serialized value, truncated.  `sha256hex` is the digest function. -/
def short_hash_from_obj (sha256hex : String → String) (v : JValue)
    (length : Nat := 10) : String :=
  (sha256hex (stable_json_dumps v)).take length

mutual
/-- Values that differ only by reordering of object keys, at any depth:
scalars must agree, arrays are related element-wise, and an object's
field list on the right is a permutation of a field list pointwise
related (same key, related value) to the left one. -/
inductive ReorderEq : JValue → JValue → Prop where
  | null : ReorderEq .null .null
  | bool (b) : ReorderEq (.bool b) (.bool b)
  | num (q) : ReorderEq (.num q) (.num q)
  | str (s) : ReorderEq (.str s) (.str s)
  | arr {xs ys} : ReorderEqList xs ys → ReorderEq (.arr xs) (.arr ys)
  | obj {fs hs gs} : ReorderEqFields fs hs → hs.Perm gs → ReorderEq (.obj fs) (.obj gs)
inductive ReorderEqList : List JValue → List JValue → Prop where
  | nil : ReorderEqList [] []
  | cons {x y xs ys} : ReorderEq x y → ReorderEqList xs ys → ReorderEqList (x :: xs) (y :: ys)
inductive ReorderEqFields : List (String × JValue) → List (String × JValue) → Prop where
  | nil : ReorderEqFields [] []
  | cons {k v w fs gs} :
      ReorderEq v w → ReorderEqFields fs gs → ReorderEqFields ((k, v) :: fs) ((k, w) :: gs)
end

mutual
/-- Well-formed JSON values: every object's keys are pairwise distinct
(Python dicts cannot hold duplicate keys). -/
inductive WFJ : JValue → Prop where
  | null : WFJ .null
  | bool (b) : WFJ (.bool b)
  | num (q) : WFJ (.num q)
  | str (s) : WFJ (.str s)
  | arr {xs} : WFL xs → WFJ (.arr xs)
  | obj {fs} : (fs.map Prod.fst).Nodup → WFF fs → WFJ (.obj fs)
inductive WFL : List JValue → Prop where
  | nil : WFL []
  | cons {x xs} : WFJ x → WFL xs → WFL (x :: xs)
inductive WFF : List (String × JValue) → Prop where
  | nil : WFF []
  | cons {k v fs} : WFJ v → WFF fs → WFF ((k, v) :: fs)
end

/-! ## Helper lemmas about the repair stage -/

theorem repair_noop {s : RepairState} (h : s.retry.retries_remaining ≤ 0) :
    repair_and_retry s = s := by
  unfold repair_and_retry
  rw [if_pos h]

theorem repair_eff {s : RepairState} (h : 0 < s.retry.retries_remaining) :
    repair_and_retry s =
      { scf :=
        { max_cycle := repairMaxCycle s.scf.max_cycle
        , conv_tol := repairConvTol s.scf.conv_tol }
      , retry :=
        { retries_remaining := s.retry.retries_remaining - 1
        , retries_used := s.retry.retries_used + 1
        , history := s.retry.history ++
            [{ attempt := s.retry.retries_used + 1
             , changes :=
               { old_max_cycle := s.scf.max_cycle
               , new_max_cycle := repairMaxCycle s.scf.max_cycle
               , old_conv_tol := s.scf.conv_tol
               , new_conv_tol := repairConvTol s.scf.conv_tol }
             , reason := "scf_not_converged" }] } } := by
  unfold repair_and_retry
  rw [if_neg (by omega)]

theorem repair_preserves_budget (retries : Int) (s : RepairState)
    (h1 : s.retry.retries_used + s.retry.retries_remaining = retries)
    (h2 : (s.retry.history.length : Int) = s.retry.retries_used) :
    (repair_and_retry s).retry.retries_used +
      (repair_and_retry s).retry.retries_remaining = retries ∧
    ((repair_and_retry s).retry.history.length : Int) =
      (repair_and_retry s).retry.retries_used := by
  by_cases hr : s.retry.retries_remaining ≤ 0
  · rw [repair_noop hr]
    exact ⟨h1, h2⟩
  · rw [repair_eff (by omega)]
    constructor
    · simp only []
      omega
    · simp only [List.length_append, List.length_cons, List.length_nil]
      push_cast
      omega

theorem iterate_budget (retries : Int) (scf0 : ScfParams) (n : Nat) :
    ((repair_and_retry^[n] ⟨scf0, initRetryState retries⟩).retry.retries_used +
      (repair_and_retry^[n] ⟨scf0, initRetryState retries⟩).retry.retries_remaining
        = retries) ∧
    (((repair_and_retry^[n] ⟨scf0, initRetryState retries⟩).retry.history.length : Int) =
      (repair_and_retry^[n] ⟨scf0, initRetryState retries⟩).retry.retries_used) := by
  induction n with
  | zero => simp [initRetryState]
  | succ n ih =>
    rw [Function.iterate_succ_apply']
    exact repair_preserves_budget retries _ ih.1 ih.2

theorem repair_remaining_nonneg (s : RepairState)
    (h : 0 ≤ s.retry.retries_remaining) :
    0 ≤ (repair_and_retry s).retry.retries_remaining := by
  by_cases hr : s.retry.retries_remaining ≤ 0
  · rw [repair_noop hr]
    exact h
  · rw [repair_eff (by omega)]
    simp only []
    omega

theorem iterate_remaining_nonneg (retries : Int) (hr : 0 ≤ retries)
    (scf0 : ScfParams) (n : Nat) :
    0 ≤ (repair_and_retry^[n] ⟨scf0, initRetryState retries⟩).retry.retries_remaining := by
  induction n with
  | zero => simpa [initRetryState]
  | succ n ih =>
    rw [Function.iterate_succ_apply']
    exact repair_remaining_nonneg _ ih

/-! ## Helper lemmas about routing -/

theorem route_cases (c : Option Bool) (rem : Int) :
    route_after_run c rem = "validate_and_report" ∨
    (route_after_run c rem = "repair_and_retry" ∧ ¬ c = some true ∧ 0 < rem) := by
  unfold route_after_run
  split
  · exact Or.inl rfl
  · split
    · exact Or.inr ⟨rfl, by assumption, by omega⟩
    · exact Or.inl rfl

theorem reaches_validation (outcomes : Nat → Option Bool) (n : Nat) :
    ∀ (s : RepairState) (k : Nat),
      s.retry.retries_remaining.toNat ≤ n →
      reachesValidationWithin outcomes s k (n + 1) = true := by
  induction n with
  | zero =>
    intro s k h
    rw [reachesValidationWithin]
    rw [if_pos ?_]
    rcases route_cases (outcomes k) s.retry.retries_remaining with hv | ⟨_, _, hpos⟩
    · exact hv
    · omega
  | succ n ih =>
    intro s k h
    rw [reachesValidationWithin]
    rcases route_cases (outcomes k) s.retry.retries_remaining with hv | ⟨hr, _, hpos⟩
    · rw [if_pos hv]
    · rw [if_neg (by rw [hr]; decide)]
      apply ih
      rw [repair_eff hpos]
      simp only []
      omega

/-! ## Claim theorems: routing and retry bookkeeping -/

/-- C1: after `run_relaxation`, the routing predicate sends a converged
calculation to `validate_and_report`; a non-converged one to
`repair_and_retry` when `retries_remaining > 0` and to
`validate_and_report` otherwise; and, along the retry loop, every run
reaches the validation stage (within `retries_remaining + 1` relaxation
attempts, whatever convergence outcomes the attempts report). -/
theorem C1_route_after_run (scf_converged : Option Bool) (remaining : Int)
    (outcomes : Nat → Option Bool) (s : RepairState) (k : Nat) :
    (scf_converged = some true →
      route_after_run scf_converged remaining = "validate_and_report") ∧
    (¬ scf_converged = some true → 0 < remaining →
      route_after_run scf_converged remaining = "repair_and_retry") ∧
    (¬ scf_converged = some true → remaining ≤ 0 →
      route_after_run scf_converged remaining = "validate_and_report") ∧
    reachesValidationWithin outcomes s k (s.retry.retries_remaining.toNat + 1) = true := by
  refine ⟨?_, ?_, ?_, reaches_validation outcomes _ s k le_rfl⟩
  · intro hc
    unfold route_after_run
    rw [if_pos hc]
  · intro hc hrem
    unfold route_after_run
    rw [if_neg hc, if_pos (by omega)]
  · intro hc hrem
    unfold route_after_run
    rw [if_neg hc, if_neg (by omega)]

/-- C1 witness: the three routing branches and loop termination at
concrete inputs. -/
theorem C1_route_after_run_witness :
    route_after_run (some true) 0 = "validate_and_report" ∧
    route_after_run (some false) 1 = "repair_and_retry" ∧
    route_after_run none 0 = "validate_and_report" ∧
    reachesValidationWithin (fun _ => some false) ⟨⟨50, 1⟩, ⟨2, 0, []⟩⟩ 0 3 = true := by
  refine ⟨?_, ?_, ?_, ?_⟩
  · exact (C1_route_after_run (some true) 0 (fun _ => some false) ⟨⟨50, 1⟩, ⟨2, 0, []⟩⟩ 0).1 rfl
  · exact (C1_route_after_run (some false) 1 (fun _ => some false) ⟨⟨50, 1⟩, ⟨2, 0, []⟩⟩ 0).2.1
      (by decide) (by decide)
  · exact (C1_route_after_run none 0 (fun _ => some false) ⟨⟨50, 1⟩, ⟨2, 0, []⟩⟩ 0).2.2.1
      (by decide) (by decide)
  · exact (C1_route_after_run none 0 (fun _ => some false) ⟨⟨50, 1⟩, ⟨2, 0, []⟩⟩ 0).2.2.2

/-- C2: starting from the retry record `load_config` creates for a
configured `run.retries` value, after any number `n` of traversals of the
`repair_and_retry` stage the invariant
`retries_used + retries_remaining = retries` holds and the history length
equals `retries_used`. -/
theorem C2_retry_budget_conservation (retries : Int) (scf0 : ScfParams) (n : Nat) :
    ((repair_and_retry^[n] ⟨scf0, initRetryState retries⟩).retry.retries_used +
      (repair_and_retry^[n] ⟨scf0, initRetryState retries⟩).retry.retries_remaining
        = retries) ∧
    (((repair_and_retry^[n] ⟨scf0, initRetryState retries⟩).retry.history.length : Int) =
      (repair_and_retry^[n] ⟨scf0, initRetryState retries⟩).retry.retries_used) :=
  iterate_budget retries scf0 n

/-- C3: with retries remaining, one repair application sets `max_cycle`
to 50 when it was below 50 and to `min(2 * max_cycle, 400)` otherwise,
and sets `conv_tol` to a value that is at least the `1e-8` floor, never
smaller than the previous tolerance, equal to the floor when the previous
tolerance was stricter than the floor, and unchanged otherwise. -/
theorem C3_repair_rule (s : RepairState) (h : 0 < s.retry.retries_remaining) :
    ((repair_and_retry s).scf.max_cycle =
      if s.scf.max_cycle < 50 then 50 else min (s.scf.max_cycle * 2) 400) ∧
    convTolFloor ≤ (repair_and_retry s).scf.conv_tol ∧
    s.scf.conv_tol ≤ (repair_and_retry s).scf.conv_tol ∧
    (s.scf.conv_tol < convTolFloor → (repair_and_retry s).scf.conv_tol = convTolFloor) ∧
    (convTolFloor ≤ s.scf.conv_tol → (repair_and_retry s).scf.conv_tol = s.scf.conv_tol) := by
  rw [repair_eff h]
  refine ⟨rfl, le_max_right _ _, le_max_left _ _, ?_, ?_⟩
  · intro hlt
    exact max_eq_right hlt.le
  · intro hle
    exact max_eq_left hle

/-- C3 witness: a state with one retry left, `max_cycle = 30` and
`conv_tol = 1e-9` (stricter than the floor) repairs to `max_cycle = 50`
and `conv_tol` equal to the floor. -/
theorem C3_repair_rule_witness :
    (repair_and_retry ⟨⟨30, 1 / 1000000000⟩, ⟨1, 0, []⟩⟩).scf.max_cycle = 50 ∧
    (repair_and_retry ⟨⟨30, 1 / 1000000000⟩, ⟨1, 0, []⟩⟩).scf.conv_tol = convTolFloor := by
  have h := C3_repair_rule ⟨⟨30, 1 / 1000000000⟩, ⟨1, 0, []⟩⟩ (by decide)
  refine ⟨?_, h.2.2.2.1 (by norm_num [convTolFloor])⟩
  rw [h.1]
  norm_num

/-- C4: applying the repair rule twice never yields a `max_cycle` below
the value after the first application, and both the first and the second
application leave `conv_tol` no smaller than the configured floor. -/
theorem C4_repair_monotone (mc : Int) (tol : Rat) :
    repairMaxCycle mc ≤ repairMaxCycle (repairMaxCycle mc) ∧
    convTolFloor ≤ repairConvTol tol ∧
    convTolFloor ≤ repairConvTol (repairConvTol tol) := by
  refine ⟨?_, le_max_right _ _, le_max_right _ _⟩
  unfold repairMaxCycle
  split
  · norm_num
  · split <;> omega

/-- C9 counterexample: the claim says repair leaves `max_cycle = 50`
unchanged, but on a state with `max_cycle = 50` and one retry left the
code takes the doubling branch (`50 < 50` is false) and produces 100. -/
theorem C9_counterexample :
    (repair_and_retry ⟨⟨50, 1⟩, ⟨1, 0, []⟩⟩).scf.max_cycle = 100 ∧
    (repair_and_retry ⟨⟨50, 1⟩, ⟨1, 0, []⟩⟩).scf.max_cycle ≠ 50 := by
  have h100 : (repair_and_retry ⟨⟨50, 1⟩, ⟨1, 0, []⟩⟩).scf.max_cycle = 100 := by
    rw [repair_eff (by decide)]
    simp [repairMaxCycle]
  exact ⟨h100, by rw [h100]; decide⟩

/-- C9 (amended): with retries remaining, repair applied at
`max_cycle = 50` produces 100 (50 is not below the floor, so the doubling
branch applies), and applied at `max_cycle = 80` produces 160. -/
theorem C9_repair_bumps (s : RepairState) (h : 0 < s.retry.retries_remaining) :
    (s.scf.max_cycle = 50 → (repair_and_retry s).scf.max_cycle = 100) ∧
    (s.scf.max_cycle = 80 → (repair_and_retry s).scf.max_cycle = 160) := by
  rw [repair_eff h]
  constructor <;> intro hm <;> simp [repairMaxCycle, hm]

/-- C9 witness: the 80 → 160 bump at a concrete state. -/
theorem C9_repair_bumps_witness :
    (repair_and_retry ⟨⟨80, 1⟩, ⟨1, 0, []⟩⟩).scf.max_cycle = 160 :=
  (C9_repair_bumps ⟨⟨80, 1⟩, ⟨1, 0, []⟩⟩ (by decide)).2 rfl

/-- C10: the schema bounds `run.retries` to the inclusive range 0..2 —
any larger value is rejected with a `ConfigValidation` error — and for an
accepted value the run performs at most 2 effective repair traversals:
after any number of `repair_and_retry` iterations, `retries_used ≤ 2`. -/
theorem C10_retries_schema_cap (retries : Int) (n : Nat) (scf0 : ScfParams) :
    (2 < retries →
      validateRunRetries retries =
        Except.error
          (ConfigError.validation "run.retries: schema constraint ge=0 le=2 violated")) ∧
    (0 ≤ retries → retries ≤ 2 →
      validateRunRetries retries = Except.ok retries ∧
      (repair_and_retry^[n] ⟨scf0, initRetryState retries⟩).retry.retries_used ≤ 2) := by
  constructor
  · intro h
    unfold validateRunRetries runRetriesSchemaOk
    rw [if_neg (by simp; omega)]
  · intro h0 h2
    constructor
    · unfold validateRunRetries runRetriesSchemaOk
      rw [if_pos (by simp; omega)]
    · have hb := (iterate_budget retries scf0 n).1
      have hr := iterate_remaining_nonneg retries h0 scf0 n
      omega

/-- C10 witness: `retries = 3` is rejected, `retries = 2` is accepted and
one repair traversal keeps `retries_used ≤ 2`. -/
theorem C10_retries_schema_cap_witness :
    validateRunRetries 3 =
      Except.error
        (ConfigError.validation "run.retries: schema constraint ge=0 le=2 violated") ∧
    validateRunRetries 2 = Except.ok 2 ∧
    (repair_and_retry^[1] ⟨⟨50, 1⟩, initRetryState 2⟩).retry.retries_used ≤ 2 := by
  refine ⟨(C10_retries_schema_cap 3 0 ⟨50, 1⟩).1 (by decide), ?_, ?_⟩
  · exact ((C10_retries_schema_cap 2 1 ⟨50, 1⟩).2 (by decide) (by decide)).1
  · exact ((C10_retries_schema_cap 2 1 ⟨50, 1⟩).2 (by decide) (by decide)).2

/-- C6: when the body of the relaxation stage's `try` block raises, the
stage catches the exception, records its text into the calculation's
`error` field, sets `scf_converged` to `False`, and returns normally
(`Except.ok`), after which the conditional routing still applies: it
selects `repair_and_retry` exactly when budget remains and otherwise
`validate_and_report`. -/
theorem C6_relaxation_error_capture (c : Calculation) (e : String) (remaining : Int) :
    ∃ c', run_relaxation_try c (Except.error e) = Except.ok c' ∧
      c'.error = some e ∧
      c'.scf_converged = some false ∧
      route_after_run c'.scf_converged remaining =
        (if 0 < remaining then "repair_and_retry" else "validate_and_report") := by
  refine ⟨{ c with error := some e, scf_converged := some false }, rfl, rfl, rfl, ?_⟩
  unfold route_after_run
  rw [if_neg (by simp)]

/-- C5: validation failure reasons accumulate independently — a missing
energy always contributes `energy_missing_or_not_run`, and a result with
both a missing energy and unmet required convergence yields both that
code and `scf_not_converged_or_not_run` — and the `passed` flag is true
iff the reason list is empty. -/
theorem C5_validation_reasons (sqrtF round8F : Rat → Rat)
    (calculation : Calculation) (validate_cfg : ValidateCfg) :
    (calculation.energy_eV = none →
      "energy_missing_or_not_run" ∈
        (validate_and_report sqrtF round8F calculation validate_cfg).reasons) ∧
    (calculation.energy_eV = none →
      validate_cfg.require_scf_converged.getD true = true →
      ¬ calculation.scf_converged = some true →
      "energy_missing_or_not_run" ∈
        (validate_and_report sqrtF round8F calculation validate_cfg).reasons ∧
      "scf_not_converged_or_not_run" ∈
        (validate_and_report sqrtF round8F calculation validate_cfg).reasons) ∧
    ((validate_and_report sqrtF round8F calculation validate_cfg).passed = true ↔
      (validate_and_report sqrtF round8F calculation validate_cfg).reasons = []) := by
  unfold validate_and_report
  rcases hf : calculation.forces_eV_per_A with _ | ⟨_ | ⟨f, fs⟩⟩ <;>
    simp only [] <;>
    split_ifs with h1 h2 h3 <;>
    simp_all [List.length_eq_zero]

/-- C5 witness: a freshly initialized calculation (no energy, no
convergence flag) with default validation settings gets both reason codes
and fails. -/
theorem C5_validation_reasons_witness :
    "energy_missing_or_not_run" ∈
      (validate_and_report id id initCalculation ⟨none, none⟩).reasons ∧
    "scf_not_converged_or_not_run" ∈
      (validate_and_report id id initCalculation ⟨none, none⟩).reasons ∧
    ((validate_and_report id id initCalculation ⟨none, none⟩).passed = true ↔
      (validate_and_report id id initCalculation ⟨none, none⟩).reasons = []) := by
  have h := C5_validation_reasons id id initCalculation ⟨none, none⟩
  exact ⟨(h.2.1 rfl rfl (by decide)).1, (h.2.1 rfl rfl (by decide)).2, h.2.2⟩

/-! ## Helper lemmas about sanitization -/

theorem sanitize_fallback_ne_empty (v : List Char) :
    (if v.isEmpty = true then "x" else String.mk v) ≠ "" := by
  split
  · decide
  · next h =>
    intro heq
    have hd : v = [] := congrArg String.data heq
    rw [hd] at h
    exact h rfl

theorem dropWhile_bad_append (rest : List Char)
    (hrest : rest.head?.all isSafeChar = true) :
    ∀ (cs : List Char), cs.all (fun c => ! isSafeChar c) = true →
      (cs ++ rest).dropWhile (fun d => ! isSafeChar d) = rest := by
  intro cs
  induction cs with
  | nil =>
    intro _
    cases rest with
    | nil => rfl
    | cons d ds =>
      simp only [Option.all, List.head?] at hrest
      simp [List.dropWhile, hrest]
  | cons c cs ih =>
    intro hall
    simp only [List.all_cons, Bool.and_eq_true] at hall
    simp [List.dropWhile, hall.1, ih hall.2]

/-- C8 counterexample: the claim as stated fails on the code.  With run
label `"My Run!"`, the run identifier ends in the lower-cased `my-run`
(`build_run_id` lower-cases the sanitized label, `paths.py:56`), not in
`"My-Run"`; and `sanitize_component "a__b"` returns `"a__b"` — the
maximal run `__` of two non-alphanumeric characters is kept verbatim,
because the regex `[^A-Za-z0-9_.-]+` treats `_`, `.` and `-` as safe, so
it is not collapsed to a single separator. -/
theorem C8_counterexample :
    build_run_id ⟨2020, 1, 2, 3, 4, 5⟩ "mat" "hsh" none (some "My Run!") =
      "20200102T030405Z_mat_hsh_my-run" ∧
    build_run_id ⟨2020, 1, 2, 3, 4, 5⟩ "mat" "hsh" none (some "My Run!") ≠
      "20200102T030405Z_mat_hsh_My-Run" ∧
    sanitize_component "a__b" = "a__b" ∧
    sanitize_component "a__b" ≠ "a-b" := by
  have hid : build_run_id ⟨2020, 1, 2, 3, 4, 5⟩ "mat" "hsh" none (some "My Run!") =
      "20200102T030405Z_mat_hsh_my-run" := by
    simp [build_run_id, sanitize_component, collapseRuns, stripEnds, isSafeChar,
      isPySpace, asciiLower, format_utc_compact, pad2, pad4]
    decide
  have hab : sanitize_component "a__b" = "a__b" := by
    simp [sanitize_component, collapseRuns, stripEnds, isSafeChar, isPySpace]
  exact ⟨hid, by rw [hid]; decide, hab, by rw [hab]; decide⟩

/-- C8 (amended): `sanitize_component "My Run!"` is `"My-Run"`, and
inside a run identifier the run-label component is additionally
lower-cased to `"my-run"`; every maximal run of characters outside the
safe class `[A-Za-z0-9_.-]` collapses to a single `-` separator; and no
sanitized component is ever empty — an input that sanitizes to nothing
falls back to the placeholder `"x"`. -/
theorem C8_sanitization (bad rest : List Char) (s : String) (n : Nat)
    (hbad : bad ≠ [])
    (hall : bad.all (fun c => ! isSafeChar c) = true)
    (hrest : rest.head?.all isSafeChar = true) :
    sanitize_component "My Run!" = "My-Run" ∧
    build_run_id ⟨2020, 1, 2, 3, 4, 5⟩ "mat" "hsh" none (some "My Run!") =
      "20200102T030405Z_mat_hsh_my-run" ∧
    collapseRuns (bad ++ rest) = '-' :: collapseRuns rest ∧
    sanitize_component s n ≠ "" := by
  refine ⟨?_, ?_, ?_, ?_⟩
  · simp [sanitize_component, collapseRuns, stripEnds, isSafeChar, isPySpace]
  · simp [build_run_id, sanitize_component, collapseRuns, stripEnds, isSafeChar,
      isPySpace, asciiLower, format_utc_compact, pad2, pad4]
    decide
  · cases bad with
    | nil => exact absurd rfl hbad
    | cons c cs =>
      simp only [List.all_cons, Bool.and_eq_true] at hall
      rw [List.cons_append, collapseRuns]
      rw [if_neg (by simpa using hall.1)]
      rw [dropWhile_bad_append rest hrest cs hall.2]
  · simp only [sanitize_component]
    exact sanitize_fallback_ne_empty _

/-- C8 witness: the concrete label sanitization, a concrete unsafe run
`"!@"` collapsing to a single `-` before the safe character `b`, and a
concrete all-unsafe input sanitizing to a non-empty component. -/
theorem C8_sanitization_witness :
    sanitize_component "My Run!" = "My-Run" ∧
    collapseRuns (['!', '@'] ++ ['b']) = '-' :: collapseRuns ['b'] ∧
    sanitize_component "!!!" 64 ≠ "" := by
  have h := C8_sanitization ['!', '@'] ['b'] "!!!" 64 (by decide) (by decide) (by decide)
  exact ⟨h.1, h.2.2.1, h.2.2.2⟩

/-! ## Helper lemmas about the code-point order on keys -/

theorem lexLe_total : ∀ (a b : List Char), lexLe a b = true ∨ lexLe b a = true
  | [], _ => Or.inl rfl
  | _ :: _, [] => Or.inr rfl
  | a :: as, b :: bs => by
    rw [lexLe, lexLe]
    rcases lt_trichotomy a b with h | h | h
    · left
      rw [if_pos h]
    · subst h
      simp only [if_neg (lt_irrefl a)]
      exact lexLe_total as bs
    · right
      rw [if_pos h]

theorem lexLe_trans : ∀ (a b c : List Char),
    lexLe a b = true → lexLe b c = true → lexLe a c = true
  | [], _, _ => by
    intro _ _
    rfl
  | _ :: _, [], _ => by
    intro h _
    exact absurd h (by rw [lexLe]; decide)
  | _ :: _, _ :: _, [] => by
    intro _ h
    exact absurd h (by rw [lexLe]; decide)
  | a :: as, b :: bs, c :: cs => by
    rw [lexLe, lexLe, lexLe]
    intro h1 h2
    rcases lt_trichotomy a b with hab | hab | hab <;>
      rcases lt_trichotomy b c with hbc | hbc | hbc
    · rw [if_pos (hab.trans hbc)]
    · subst hbc
      rw [if_pos hab]
    · rw [if_neg (lt_asymm hbc), if_pos hbc] at h2
      exact absurd h2 (by decide)
    · subst hab
      rw [if_pos hbc]
    · subst hab
      subst hbc
      simp only [if_neg (lt_irrefl a)] at h1 h2 ⊢
      exact lexLe_trans as bs cs h1 h2
    · subst hab
      rw [if_neg (lt_asymm hbc), if_pos hbc] at h2
      exact absurd h2 (by decide)
    · rw [if_neg (lt_asymm hab), if_pos hab] at h1
      exact absurd h1 (by decide)
    · subst hbc
      rw [if_neg (lt_asymm hab), if_pos hab] at h1
      exact absurd h1 (by decide)
    · rw [if_neg (lt_asymm hab), if_pos hab] at h1
      exact absurd h1 (by decide)

theorem lexLe_antisymm : ∀ (a b : List Char),
    lexLe a b = true → lexLe b a = true → a = b
  | [], [], _, _ => rfl
  | [], _ :: _, _, h => absurd h (by rw [lexLe]; decide)
  | _ :: _, [], h, _ => absurd h (by rw [lexLe]; decide)
  | a :: as, b :: bs, h1, h2 => by
    rw [lexLe] at h1 h2
    rcases lt_trichotomy a b with hab | hab | hab
    · rw [if_neg (lt_asymm hab), if_pos hab] at h2
      exact absurd h2 (by decide)
    · subst hab
      simp only [if_neg (lt_irrefl a)] at h1 h2
      rw [lexLe_antisymm as bs h1 h2]
    · rw [if_neg (lt_asymm hab), if_pos hab] at h1
      exact absurd h1 (by decide)

/-! ## Helper lemmas: sorting rendered object entries -/

theorem mergeSortKey_eq_of_perm (l₁ l₂ : List (String × String))
    (hp : l₁.Perm l₂) (hnd : (l₁.map Prod.fst).Nodup) :
    l₁.mergeSort keyPairLe = l₂.mergeSort keyPairLe := by
  have htrans : ∀ (a b c : String × String),
      keyPairLe a b = true → keyPairLe b c = true → keyPairLe a c = true :=
    fun _ _ _ h1 h2 => lexLe_trans _ _ _ h1 h2
  have htotal : ∀ (a b : String × String), (keyPairLe a b || keyPairLe b a) = true := by
    intro a b
    rcases lexLe_total a.1.data b.1.data with h | h <;> simp [keyPairLe, h]
  have hs₁ := @List.sorted_mergeSort _ keyPairLe htrans htotal l₁
  have hs₂ := @List.sorted_mergeSort _ keyPairLe htrans htotal l₂
  have hnd₁ : ((l₁.mergeSort keyPairLe).map Prod.fst).Nodup :=
    hnd.perm ((List.mergeSort_perm l₁ keyPairLe).map Prod.fst).symm
  have hnd₂ : ((l₂.mergeSort keyPairLe).map Prod.fst).Nodup :=
    (hnd.perm (hp.map Prod.fst)).perm ((List.mergeSort_perm l₂ keyPairLe).map Prod.fst).symm
  have hpne₁ : List.Pairwise (fun a b : String × String => a.1 ≠ b.1)
      (l₁.mergeSort keyPairLe) := List.pairwise_map.mp hnd₁
  have hpne₂ : List.Pairwise (fun a b : String × String => a.1 ≠ b.1)
      (l₂.mergeSort keyPairLe) := List.pairwise_map.mp hnd₂
  haveI : IsAntisymm (String × String)
      (fun a b => keyPairLe a b = true ∧ a.1 ≠ b.1) := by
    constructor
    rintro a b ⟨h1, hne⟩ ⟨h2, _⟩
    exact (hne (String.ext (lexLe_antisymm _ _ h1 h2))).elim
  exact List.eq_of_perm_of_sorted
    (((List.mergeSort_perm l₁ keyPairLe).trans hp).trans
      (List.mergeSort_perm l₂ keyPairLe).symm)
    (hs₁.and hpne₁) (hs₂.and hpne₂)

theorem renderObjFromPairs_perm (l₁ l₂ : List (String × String))
    (hp : l₁.Perm l₂) (hnd : (l₁.map Prod.fst).Nodup) :
    renderObjFromPairs l₁ = renderObjFromPairs l₂ := by
  unfold renderObjFromPairs
  rw [mergeSortKey_eq_of_perm l₁ l₂ hp hnd]

/-! ## Helper lemmas: serialization respects key reordering -/

theorem dumps_arr (items : List JValue) :
    dumps (.arr items) = "[" ++ joinComma (items.map dumps) ++ "]" := by
  rw [dumps, List.attach_map_val]

theorem dumps_obj (fields : List (String × JValue)) :
    dumps (.obj fields) =
      renderObjFromPairs
        (fields.map (fun p => (p.1, dumpString p.1 ++ ":" ++ dumps p.2))) := by
  rw [dumps]
  congr 1
  exact List.attach_map_val fields (fun p => (p.1, dumpString p.1 ++ ":" ++ dumps p.2))

theorem mapDumps_congr (xs : List JValue)
    (ih : ∀ x ∈ xs, ∀ y, WFJ x → ReorderEq x y → dumps x = dumps y) :
    ∀ (ys : List JValue), WFL xs → ReorderEqList xs ys →
      xs.map dumps = ys.map dumps := by
  induction xs with
  | nil =>
    intro ys _ hr
    cases hr
    rfl
  | cons x xs ihl =>
    intro ys hw hr
    cases hr with
    | cons hxy hrest =>
      cases hw with
      | cons hwx hwxs =>
        simp only [List.map_cons]
        rw [ih x (by simp) _ hwx hxy,
          ihl (fun a ha y hwa h => ih a (by simp [ha]) y hwa h) _ hwxs hrest]

theorem mapRender_congr (fs : List (String × JValue))
    (ih : ∀ p ∈ fs, ∀ y, WFJ p.2 → ReorderEq p.2 y → dumps p.2 = dumps y) :
    ∀ (gs : List (String × JValue)), WFF fs → ReorderEqFields fs gs →
      fs.map (fun p => (p.1, dumpString p.1 ++ ":" ++ dumps p.2)) =
        gs.map (fun p => (p.1, dumpString p.1 ++ ":" ++ dumps p.2)) := by
  induction fs with
  | nil =>
    intro gs _ hr
    cases hr
    rfl
  | cons f fs ihl =>
    intro gs hw hr
    obtain ⟨k, v⟩ := f
    cases hr with
    | @cons _ _ w _ gs' hvw hrest =>
      cases hw with
      | cons hwv hwfs =>
        simp only [List.map_cons]
        have h1 : dumps v = dumps w := ih (k, v) (by simp) w hwv hvw
        rw [h1, ihl (fun a ha y hwa h => ih a (by simp [ha]) y hwa h) _ hwfs hrest]

theorem dumps_eq_of_reorder : ∀ (a b : JValue), WFJ a → ReorderEq a b → dumps a = dumps b
  | .null, _, _, h => by
    cases h
    rfl
  | .bool _, _, _, h => by
    cases h
    rfl
  | .num _, _, _, h => by
    cases h
    rfl
  | .str _, _, _, h => by
    cases h
    rfl
  | .arr xs, _, hw, h => by
    cases h with
    | @arr _ ys hlist =>
      cases hw with
      | arr hwl =>
        rw [dumps_arr, dumps_arr,
          mapDumps_congr xs (fun x hx y hwx hxy => dumps_eq_of_reorder x y hwx hxy) ys hwl hlist]
  | .obj fs, _, hw, h => by
    cases h with
    | @obj _ hs gs hfields hperm =>
      cases hw with
      | obj hnd hwf =>
        rw [dumps_obj, dumps_obj]
        have hmap := mapRender_congr fs
          (fun p hp y hwp hpy => dumps_eq_of_reorder p.2 y hwp hpy) hs hwf hfields
        rw [hmap]
        apply renderObjFromPairs_perm _ _ (hperm.map _)
        have hkeys : fs.map Prod.fst = hs.map Prod.fst := by
          have := congrArg (List.map Prod.fst) hmap
          simpa [List.map_map] using this
        rw [List.map_map]
        have hcomp : (Prod.fst ∘ fun p : String × JValue =>
            (p.1, dumpString p.1 ++ ":" ++ dumps p.2)) = Prod.fst := rfl
        rw [hcomp, ← hkeys]
        exact hnd
termination_by a => sizeOf a
decreasing_by
  · have := List.sizeOf_lt_of_mem hx
    simp
    omega
  · have h1 := List.sizeOf_lt_of_mem hp
    have h2 : sizeOf p.2 < sizeOf p := by
      obtain ⟨k, v⟩ := p
      simp
    simp
    omega

/-! ## Claim theorems: stable hashing -/

/-- C7: structured values equal up to reordering of mapping keys at any
depth (with the well-formedness Python dicts guarantee: distinct sibling
keys) serialize to the same `stable_json_dumps` string, so
`short_hash_from_obj` — and hence the config-derived portion of the run
identifier — is identical for them, whatever digest function and
truncation length are used. -/
theorem C7_stable_hash_key_order (sha256hex : String → String) (length : Nat)
    (a b : JValue) (hw : WFJ a) (hr : ReorderEq a b) :
    short_hash_from_obj sha256hex a length = short_hash_from_obj sha256hex b length := by
  unfold short_hash_from_obj stable_json_dumps
  rw [dumps_eq_of_reorder a b hw hr]

/-- C7 witness: two concrete nested objects differing only in key order
(at both depths) get the same short hash. -/
theorem C7_stable_hash_key_order_witness :
    short_hash_from_obj (fun s => s)
      (JValue.obj [("b", JValue.num 1),
        ("a", JValue.obj [("y", JValue.null), ("x", JValue.bool true)])]) 10 =
    short_hash_from_obj (fun s => s)
      (JValue.obj [("a", JValue.obj [("x", JValue.bool true), ("y", JValue.null)]),
        ("b", JValue.num 1)]) 10 := by
  apply C7_stable_hash_key_order
  · exact WFJ.obj (by decide)
      (WFF.cons (WFJ.num 1)
        (WFF.cons
          (WFJ.obj (by decide) (WFF.cons WFJ.null (WFF.cons (WFJ.bool true) WFF.nil)))
          WFF.nil))
  · exact @ReorderEq.obj _
      [("b", JValue.num 1), ("a", JValue.obj [("x", JValue.bool true), ("y", JValue.null)])] _
      (ReorderEqFields.cons (ReorderEq.num 1)
        (ReorderEqFields.cons
          (@ReorderEq.obj _ [("y", JValue.null), ("x", JValue.bool true)] _
            (ReorderEqFields.cons ReorderEq.null
              (ReorderEqFields.cons (ReorderEq.bool true) ReorderEqFields.nil))
            (List.Perm.swap ("x", JValue.bool true) ("y", JValue.null) []))
          ReorderEqFields.nil))
      (List.Perm.swap
        ("a", JValue.obj [("x", JValue.bool true), ("y", JValue.null)])
        ("b", JValue.num 1) [])

end DftOrch
